import Mathlib

/-!
Verification of the traffic-mediator backend (`src/backend/browser.py`).

The Python data structures are shallowly embedded:
* a Python `dict[str, str]` is an association list with unique keys kept in
  insertion order (`HDict`); `pyInsert` models `d[k] = v` (update-in-place
  keeps the position, a new key is appended) and `pyUpdate` models
  `d.update(e)`;
* the string primitives the source uses (`split`, `replace`, `lower`,
  `startswith`, `in`) are defined here structurally over `List Char`, with
  Python's semantics, so that every definition evaluates inside the kernel;
* `re.sub` is abstracted by an oracle `RegexSub`: for a fixed
  (pattern, replacement, input) triple Python either returns a string
  (`some s`) or raises (`none`);
* `json.loads` restricted to JSON objects of string pairs is the oracle
  field `jsonObj?` of the pipeline environment (`none` models a raise);
* exceptions are `Except Unit`.
-/

namespace Chameleon

abbrev HDict := List (String × String)

/-- Model of Python `d[k] = v` on a dict: if the key is present its value is
replaced in place, otherwise the pair is appended. -/
def pyInsert (d : HDict) (k v : String) : HDict :=
  if d.any (fun kv => kv.1 = k) then
    d.map (fun kv => if kv.1 = k then (k, v) else kv)
  else d ++ [(k, v)]

/-- Model of Python `d.update(e)`. -/
def pyUpdate (d e : HDict) : HDict :=
  e.foldl (fun acc kv => pyInsert acc kv.1 kv.2) d

/-- Model of Python `s.lower()` (header names here are ASCII). -/
def pyLower (s : String) : String :=
  String.mk (s.data.map Char.toLower)

/-- Model of Python `s.startswith(pre)`. -/
def pyStartsWith (s pre : String) : Bool :=
  pre.data.isPrefixOf s.data

/-- Replace every occurrence of `old` in the list, left to right,
non-overlapping; `fuel` only drives structural termination and is always
sufficient at `s.length + 1` for a nonempty `old`. -/
def pyReplaceGo (old new : List Char) : Nat → List Char → List Char
  | 0, s => s
  | _ + 1, [] => []
  | fuel + 1, c :: rest =>
    if old.isPrefixOf (c :: rest) then
      new ++ pyReplaceGo old new fuel ((c :: rest).drop old.length)
    else
      c :: pyReplaceGo old new fuel rest

/-- Model of Python `s.replace(old, new)` (every occurrence; an empty `old`
inserts `new` between every character and at both ends). -/
def pyReplace (s old new : String) : String :=
  if old = "" then
    new ++ String.join (s.data.map fun c => String.singleton c ++ new)
  else
    String.mk (pyReplaceGo old.data new.data (s.data.length + 1) s.data)

/-- Splitter for `pySplit`; `fuel` only drives structural termination and is
always sufficient at `s.length + 1` for a nonempty separator. -/
def pySplitGo (sep : List Char) : Nat → List Char → List Char → List (List Char)
  | 0, _, acc => [acc.reverse]
  | _ + 1, [], acc => [acc.reverse]
  | fuel + 1, c :: rest, acc =>
    if sep.isPrefixOf (c :: rest) then
      acc.reverse :: pySplitGo sep fuel ((c :: rest).drop sep.length) []
    else
      pySplitGo sep fuel rest (c :: acc)

/-- Model of Python `s.split(sep)` for a nonempty separator (the only way the
source calls it): empty fields are kept, so `"a  b".split(" ")` has three
elements and `"".split(x)` is `[""]`. -/
def pySplit (sep s : String) : List String :=
  (pySplitGo sep.data (s.data.length + 1) s.data []).map String.mk

/-- Model of Python `sep in line` for strings. -/
def pyIn (sep line : String) : Bool :=
  (pySplit sep line).length ≥ 2

/-- Model of Python `line.split(sep, 1)` when the separator occurs
(`none` when it does not, i.e. when `sep in line` is false). -/
def splitFirst (sep line : String) : Option (String × String) :=
  match pySplit sep line with
  | [] => none
  | [_] => none
  | k :: rest => some (k, String.intercalate sep rest)

/-- A match/replace rule (`MatchReplaceRule`); the Python field `match` is
spelled `matchPat` because `match` is a Lean keyword. -/
structure MRRule where
  enabled : Bool
  item : String
  matchPat : String
  replace : String
  isRegex : Bool
deriving Repr, DecidableEq

/-- Oracle for `re.sub pattern repl input`: `some s` when Python returns `s`,
`none` when the call raises (bad pattern, bad group reference, ...). -/
abbrev RegexSub := String → String → String → Option String

/-- One rule applied to one string, as in every branch of
`_apply_match_replace`: a raising regex substitution leaves the string
unchanged (`try ... except: pass`), a literal rule replaces every
occurrence. -/
def applyRuleToLine (rx : RegexSub) (r : MRRule) (line : String) : String :=
  if r.isRegex then
    match rx r.matchPat r.replace line with
    | some s => s
    | none => line
  else pyReplace line r.matchPat r.replace

/-- The rule slice selected at the top of `_apply_match_replace`:
`[r for r in self.match_replace_rules if r.enabled and r.item == item_type]`. -/
def rulesFor (rules : List MRRule) (item : String) : List MRRule :=
  rules.filter fun r => r.enabled && r.item == item

/-- Linearisation of a header dict: `[f"{k}: {v}" for k, v in headers.items()]`. -/
def headerLines (h : HDict) : List String :=
  h.map fun kv => kv.1 ++ ": " ++ kv.2

/-- Re-parse of one rewritten header line into the accumulator dict
(`if ': ' in line: ... elif ':' in line: ...`; a line with no colon is
skipped). -/
def reparseLine (acc : HDict) (line : String) : HDict :=
  match splitFirst ": " line with
  | some kv => pyInsert acc kv.1 kv.2
  | none =>
    match splitFirst ":" line with
    | some kv => pyInsert acc kv.1 kv.2
    | none => acc

def reparseHeaders (lines : List String) : HDict :=
  lines.foldl reparseLine []

/-- One rule applied to a header dict (one iteration of the rule loop of the
header branch): rewrite every linearised line, drop lines that became empty,
re-parse. -/
def applyHeaderRule (rx : RegexSub) (h : HDict) (r : MRRule) : HDict :=
  reparseHeaders (((headerLines h).map (applyRuleToLine rx r)).filter (fun l => l ≠ ""))

/-- The `Request header` / `Response header` branch of `_apply_match_replace`. -/
def applyMatchReplaceHeaders (rx : RegexSub) (rules : List MRRule) (item : String)
    (h : HDict) : HDict :=
  (rulesFor rules item).foldl (applyHeaderRule rx) h

/-- The `Request body` / `Response body` branch of `_apply_match_replace`
(`None` body returned unchanged). -/
def applyMatchReplaceBody (rx : RegexSub) (rules : List MRRule) (item : String)
    (body : Option String) : Option String :=
  let rs := rulesFor rules item
  if rs.isEmpty then body
  else body.map fun b => rs.foldl (fun s r => applyRuleToLine rx r s) b

/-- Decimal digit string to a number (`none` on empty or non-digit). -/
def digitsVal? (cs : List Char) : Option Nat :=
  if cs.isEmpty then none
  else cs.foldl
    (fun acc c => acc.bind fun n => if c.isDigit then some (10 * n + (c.toNat - 48)) else none)
    (some 0)

/-- Model of Python `int(s)`: optional sign then decimal digits. (Python also
accepts surrounding whitespace and underscore grouping; no theorem below
depends on those inputs.) -/
def pyInt? (s : String) : Option Int :=
  match s.data with
  | '-' :: cs => (digitsVal? cs).map fun n => -(n : Int)
  | '+' :: cs => (digitsVal? cs).map fun n => (n : Int)
  | cs => (digitsVal? cs).map fun n => (n : Int)

/-- The `Request first line` branch of `_apply_match_replace`: synthesise
`"METHOD URL HTTP/1.1"`, run the slice's rules in order, split on single
spaces; with at least two tokens the first two become method and url,
otherwise the original pair is retained. -/
def applyMatchReplaceReqLine (rx : RegexSub) (rules : List MRRule)
    (method url : String) : String × String :=
  let rs := rulesFor rules "Request first line"
  if rs.isEmpty then (method, url)
  else
    let line := rs.foldl (fun s r => applyRuleToLine rx r s) (method ++ " " ++ url ++ " HTTP/1.1")
    match pySplit " " line with
    | m :: u :: _ => (m, u)
    | _ => (method, url)

/-- The `Response first line` branch of `_apply_match_replace`: synthesise
`"HTTP/1.1 STATUS"`, run the slice's rules in order, split on single spaces;
with at least two tokens the second is coerced with `int(...)`, retaining
the original status when the parse or the coercion fails. -/
def applyMatchReplaceResLine (rx : RegexSub) (rules : List MRRule)
    (status : Int) : Int :=
  let rs := rulesFor rules "Response first line"
  if rs.isEmpty then status
  else
    let line := rs.foldl (fun s r => applyRuleToLine rx r s) ("HTTP/1.1 " ++ toString status)
    match pySplit " " line with
    | _ :: s :: _ =>
      match pyInt? s with
      | some n => n
      | none => status
    | _ => status

/-! ## The interception pipeline (`_route_handler`)

One invocation of `_route_handler` is modelled as a function of an
environment `Env` that fixes everything the handler observes from outside:
the intercepted request, the two intercept flags, the rule list, the regex
and JSON oracles, the UI verdicts a parked item would receive, and the
success or failure of every awaited browser primitive. The function returns
the capture events emitted, the network primitives invoked in order, whether
the request/response was parked in `pending_items`, and whether an exception
escaped to the outer `except` block. -/

/-- The `modified` payload a `forward` verdict may carry
(`modified.get("method" | "headers" | "body" | "status", default)`). -/
structure Modified where
  method : Option String := none
  headers : Option HDict := none
  body : Option String := none
  status : Option Int := none
deriving Repr, DecidableEq

/-- The verdict observed by a parked pipeline after `event.wait()`:
`item["action"]` is `"drop"`, or anything else (set to `"forward"` by
`forward_item`) with the optional `modified` data. -/
inductive Verdict where
  | drop : Verdict
  | forward (m : Modified) : Verdict
deriving Repr, DecidableEq

/-- The `req_data` capture payload (uuid and timestamp omitted). -/
structure ReqData where
  method : String
  url : String
  headers : HDict
  body : Option String
  resourceType : String
  pending : Bool
deriving Repr, DecidableEq

/-- The `res_data` capture payload (ids and timestamp omitted). -/
structure ResData where
  url : String
  status : Int
  headers : HDict
  body : String
  pending : Bool
deriving Repr, DecidableEq

/-- A capture event delivered through `on_request_captured`. -/
inductive Event where
  | request (d : ReqData)
  | response (d : ResData)
deriving Repr, DecidableEq

/-- A browser/network primitive invoked by the handler, with the arguments
handed to it. `fallbackContinue` is the argument-less `route.continue_()` of
the outer `except` block, which forwards the original request unmodified. -/
inductive NetOp where
  | fetch (method url : String) (headers : HDict) (body : Option String)
  | continueWith (method url : String) (headers : HDict) (body : Option String)
  | fallbackContinue
  | abort
  | fulfill (status : Int) (headers : HDict) (body : String)
deriving Repr, DecidableEq

/-- The response object returned by `route.fetch`. -/
structure FetchResponse where
  status : Int
  headers : HDict
  url : String
deriving Repr, DecidableEq

/-- Everything one `_route_handler` invocation observes from outside.
`Except.error` on a primitive means the awaited call raises. The result of
the fallback `route.continue_()` is recorded in `fallbackResult` but the
handler never consults it: the source wraps the call in
`try ... except: pass`. -/
structure Env where
  method : String
  url : String
  resourceType : String
  postData : Option String
  interceptRequests : Bool
  interceptResponses : Bool
  rules : List MRRule
  rx : RegexSub
  jsonObj? : String → Option HDict
  allHeaders : Except Unit HDict
  emitReq : Except Unit Unit
  verdictReq : Verdict
  fetchResult : Except Unit FetchResponse
  textResult : Except Unit String
  emitRes : Except Unit Unit
  verdictRes : Verdict
  fulfillResult : Except Unit Unit
  continueResult : Except Unit Unit
  abortResult : Except Unit Unit
  fallbackResult : Except Unit Unit

/-- Observable outcome of one `_route_handler` invocation. -/
structure RHResult where
  events : List Event
  ops : List NetOp
  parkedReq : Bool
  parkedRes : Bool
  raised : Bool
deriving Repr, DecidableEq

/-- Case-insensitive test for the two reserved channel headers. -/
def reservedName (k : String) : Bool :=
  pyLower k == "x-waf-bypass-repeater" || pyLower k == "x-antigravity-override"

/-- The scan loop over `final_headers.items()`: sets the bypass flag on
`x-waf-bypass-repeater` and parses `x-antigravity-override` as JSON, keeping
the previous value on a parse error (`except: pass`). -/
def scanChannelHeaders (jsonObj? : String → Option HDict) (h : HDict) : Bool × HDict :=
  h.foldl
    (fun acc kv =>
      if pyLower kv.1 == "x-waf-bypass-repeater" then (true, acc.2)
      else if pyLower kv.1 == "x-antigravity-override" then
        match jsonObj? kv.2 with
        | some d => (acc.1, d)
        | none => acc
      else acc)
    (false, [])

/-- The dict comprehension removing the two reserved headers. -/
def stripReserved (h : HDict) : HDict :=
  h.filter fun kv => !(reservedName kv.1)

/-- Steps 6–8 of the pipeline: response text, response-side match/replace,
optional response interception, and `route.fulfill`. -/
def responsePhase (env : Env) (events : List Event) (ops : List NetOp)
    (parkedReq : Bool) (resp : FetchResponse) : RHResult :=
  let resBody0 := match env.textResult with
    | .ok t => t
    | .error _ => "<binary data>"
  let resStatus := applyMatchReplaceResLine env.rx env.rules resp.status
  let resHeaders := applyMatchReplaceHeaders env.rx env.rules "Response header" resp.headers
  let resBody := (applyMatchReplaceBody env.rx env.rules "Response body" (some resBody0)).getD resBody0
  let resData : ResData := ⟨resp.url, resStatus, resHeaders, resBody, env.interceptResponses⟩
  if env.interceptResponses then
    match env.emitRes with
    | .error _ => ⟨events, ops, parkedReq, true, true⟩
    | .ok _ =>
      let events := events ++ [.response resData]
      match env.verdictRes with
      | .drop =>
        match env.abortResult with
        | .ok _ => ⟨events, ops ++ [.abort], parkedReq, true, false⟩
        | .error _ => ⟨events, ops ++ [.abort], parkedReq, true, true⟩
      | .forward m =>
        let resStatus := m.status.getD resStatus
        let resHeaders := m.headers.getD resHeaders
        let resBody := m.body.getD resBody
        match env.fulfillResult with
        | .ok _ => ⟨events, ops ++ [.fulfill resStatus resHeaders resBody], parkedReq, true, false⟩
        | .error _ => ⟨events, ops ++ [.fulfill resStatus resHeaders resBody], parkedReq, true, true⟩
  else
    match env.emitRes with
    | .error _ => ⟨events, ops, parkedReq, false, true⟩
    | .ok _ =>
      let events := events ++ [.response resData]
      match env.fulfillResult with
      | .ok _ => ⟨events, ops ++ [.fulfill resStatus resHeaders resBody], parkedReq, false, false⟩
      | .error _ => ⟨events, ops ++ [.fulfill resStatus resHeaders resBody], parkedReq, false, true⟩

/-- Step 5 of the pipeline: bypass mode hands the request to
`route.continue_` with `Host`/`Content-Length` removed (aborting on
failure), mediated mode performs `route.fetch` (aborting on failure) and
proceeds to the response half. -/
def dispatchPhase (env : Env) (events : List Event) (parkedReq : Bool)
    (isRepeaterBypass : Bool) (finalMethod finalUrl : String)
    (finalHeaders : HDict) (finalBody : Option String) : RHResult :=
  if isRepeaterBypass then
    let continueHeaders := finalHeaders.filter fun kv =>
      !(pyLower kv.1 == "host") && !(pyLower kv.1 == "content-length")
    match env.continueResult with
    | .ok _ =>
      ⟨events, [.continueWith finalMethod finalUrl continueHeaders finalBody], parkedReq, false, false⟩
    | .error _ =>
      match env.abortResult with
      | .ok _ =>
        ⟨events, [.continueWith finalMethod finalUrl continueHeaders finalBody, .abort],
          parkedReq, false, false⟩
      | .error _ =>
        ⟨events, [.continueWith finalMethod finalUrl continueHeaders finalBody, .abort],
          parkedReq, false, true⟩
  else
    match env.fetchResult with
    | .error _ =>
      match env.abortResult with
      | .ok _ =>
        ⟨events, [.fetch finalMethod finalUrl finalHeaders finalBody, .abort], parkedReq, false, false⟩
      | .error _ =>
        ⟨events, [.fetch finalMethod finalUrl finalHeaders finalBody, .abort], parkedReq, false, true⟩
    | .ok resp =>
      responsePhase env events [.fetch finalMethod finalUrl finalHeaders finalBody] parkedReq resp

/-- The body of `_route_handler`'s outer `try` block. -/
def routeHandlerCore (env : Env) : RHResult :=
  match env.allHeaders with
  | .error _ => ⟨[], [], false, false, true⟩
  | .ok headers =>
    let lineData := applyMatchReplaceReqLine env.rx env.rules env.method env.url
    let finalMethod := lineData.1
    let finalUrl := lineData.2
    let finalHeaders := applyMatchReplaceHeaders env.rx env.rules "Request header" headers
    let finalBody := applyMatchReplaceBody env.rx env.rules "Request body" env.postData
    let reqData : ReqData :=
      ⟨finalMethod, finalUrl, finalHeaders, finalBody, env.resourceType, env.interceptRequests⟩
    let scan := scanChannelHeaders env.jsonObj? finalHeaders
    let isRepeaterBypass := scan.1
    let overrideHeaders := scan.2
    let finalHeaders :=
      if isRepeaterBypass || !overrideHeaders.isEmpty then
        pyUpdate (stripReserved finalHeaders) overrideHeaders
      else finalHeaders
    if env.interceptRequests && !isRepeaterBypass then
      match env.emitReq with
      | .error _ => ⟨[], [], true, false, true⟩
      | .ok _ =>
        match env.verdictReq with
        | .drop =>
          match env.abortResult with
          | .ok _ => ⟨[.request reqData], [.abort], true, false, false⟩
          | .error _ => ⟨[.request reqData], [.abort], true, false, true⟩
        | .forward m =>
          let finalMethod := m.method.getD finalMethod
          let finalHeaders := m.headers.getD finalHeaders
          let finalBody := match m.body with
            | some b => some b
            | none => finalBody
          dispatchPhase env [.request reqData] true isRepeaterBypass finalMethod finalUrl
            finalHeaders finalBody
    else
      match env.emitReq with
      | .error _ => ⟨[], [], false, false, true⟩
      | .ok _ =>
        dispatchPhase env [.request reqData] false isRepeaterBypass finalMethod finalUrl
          finalHeaders finalBody

/-- The whole of `_route_handler`: on an exception escaping the `try` block
the handler logs and attempts a bare `route.continue_()`; whether or not
that call succeeds, nothing further happens (`except: pass`). -/
def routeHandler (env : Env) : RHResult :=
  let r := routeHandlerCore env
  if r.raised then { r with ops := r.ops ++ [NetOp.fallbackContinue] }
  else r

/-! ## The pending registry (`pending_items`, `forward_item`, `drop_item`)

The registry is the dict `self.pending_items`; only the fields a verdict
touches are modelled (`action`, `modified`, and the `asyncio.Event`). The
pipeline removes an entry with `del self.pending_items[id]` only after it
has woken up; the resolver itself never removes anything. -/

/-- The mutable part of one `pending_items` entry. -/
structure PendingItem where
  action : Option String := none
  modified : Option Modified := none
  eventSet : Bool := false
deriving Repr, DecidableEq

abbrev Registry := List (String × PendingItem)

/-- Model of `forward_item`: if the id is present, set `action = "forward"`,
attach `modified` when truthy, signal the event and return `True`;
otherwise return `False`. The entry is not removed. -/
def forward_item (reg : Registry) (itemId : String) (modifiedData : Option Modified) :
    Bool × Registry :=
  if reg.any (fun p => p.1 = itemId) then
    (true,
      reg.map fun p =>
        if p.1 = itemId then
          (p.1,
            { p.2 with
                action := some "forward"
                modified := match modifiedData with
                  | some m => some m
                  | none => p.2.modified
                eventSet := true })
        else p)
  else (false, reg)

/-- Model of `drop_item`: if the id is present, set `action = "drop"`,
signal the event and return `True`; otherwise return `False`. The entry is
not removed. -/
def drop_item (reg : Registry) (itemId : String) : Bool × Registry :=
  if reg.any (fun p => p.1 = itemId) then
    (true,
      reg.map fun p =>
        if p.1 = itemId then (p.1, { p.2 with action := some "drop", eventSet := true })
        else p)
  else (false, reg)

/-- Model of `del self.pending_items[id]`, executed by the woken pipeline. -/
def pyDelete (reg : Registry) (itemId : String) : Registry :=
  reg.filter fun p => !(p.1 == itemId)

/-! ## The replayer's header partition (`replay_request`) -/

/-- The literal forbidden list of `replay_request`. -/
def forbiddenList : List String :=
  ["host", "connection", "keep-alive", "proxy-authenticate", "proxy-authorization",
   "te", "trailer", "transfer-encoding", "upgrade", "cookie", "user-agent",
   "referer", "origin", "content-length", "date", "expect"]

/-- The safe set: stored headers whose lowercased name is neither in the
forbidden list nor `sec-`-prefixed. -/
def safeHeaders (headers : HDict) : HDict :=
  headers.filter fun kv =>
    !(forbiddenList.contains (pyLower kv.1)) && !(pyStartsWith (pyLower kv.1) "sec-")

/-- The header dict handed to the in-page `fetch` call: the safe set plus the
two injected control headers. `headersJson` stands for
`json.dumps(headers)`, whose exact text no theorem depends on. -/
def replayFetchHeaders (headersJson : String) (headers : HDict) : HDict :=
  pyInsert (pyInsert (safeHeaders headers) "X-WAF-Bypass-Repeater" "1")
    "X-Antigravity-Override" headersJson

/-! ## A heap model for the frame claim

Python dicts are mutable objects, so "the input is not mutated" is a claim
about the heap. The header branch of `_apply_match_replace` — the only
branch that writes to any dict — is re-run here against an explicit heap:
dict-valued variables become references (indices into the heap),
`data.copy()` and `new_headers = {}` allocate fresh cells, and
`new_headers[k] = v` writes through the reference. The body branch only
manipulates immutable strings and the first-line branches only read their
input dict and return either a fresh literal or the input reference, so
they perform no write at all. -/

abbrev Heap := List HDict

def readH (heap : Heap) (r : Nat) : HDict := heap.getD r []

def writeH (heap : Heap) (r : Nat) (d : HDict) : Heap := heap.set r d

def allocH (heap : Heap) (d : HDict) : Heap × Nat := (heap ++ [d], heap.length)

/-- One re-parse step of the header branch against the heap: the statement
`new_headers[k] = v` becomes a read-modify-write through the `new_headers`
reference; a line with no colon writes nothing. -/
def fillLine (ref : Nat) (hp : Heap) (line : String) : Heap :=
  match splitFirst ": " line with
  | some kv => writeH hp ref (pyInsert (readH hp ref) kv.1 kv.2)
  | none =>
    match splitFirst ":" line with
    | some kv => writeH hp ref (pyInsert (readH hp ref) kv.1 kv.2)
    | none => hp

/-- One iteration of the header-branch rule loop against the heap: read the
current dict, rewrite its linearised lines, allocate the fresh
`new_headers = {}` cell, fill it with one write per re-parsed line, and hand
back the new reference (the Python rebinding `headers = new_headers`). -/
def applyHeaderRuleH (rx : RegexSub) (st : Heap × Nat) (r : MRRule) : Heap × Nat :=
  let newLines :=
    ((headerLines (readH st.1 st.2)).map (applyRuleToLine rx r)).filter (fun l => l ≠ "")
  let a := allocH st.1 []
  (newLines.foldl (fillLine a.2) a.1, a.2)

/-- The header branch of `_apply_match_replace` against the heap: with no
applicable rule the input reference itself is returned unread (the early
`return data`); otherwise `headers = data.copy()` allocates a copy and the
rule loop runs from it. -/
def applyMatchReplaceHeadersH (rx : RegexSub) (rules : List MRRule) (item : String)
    (heap : Heap) (dataRef : Nat) : Heap × Nat :=
  let rs := rulesFor rules item
  if rs.isEmpty then (heap, dataRef)
  else rs.foldl (applyHeaderRuleH rx) (allocH heap (readH heap dataRef))

/-- The headers an operation dispatches towards the network: the argument of
`route.fetch` or of `route.continue_` with arguments. `route.fulfill`
delivers to the browser, not the network; the bare fallback `continue_()`
forwards the original request headers, which are not recomputed here. -/
def egressHeaders : NetOp → Option HDict
  | NetOp.fetch _ _ h _ => some h
  | NetOp.continueWith _ _ h _ => some h
  | _ => none

/-- A concrete quiescent environment: no rules, no interception, a plain GET
with no channel headers, every primitive succeeding. Counterexample
environments below are built from it by updating fields. -/
def baseEnv : Env :=
  { method := "GET"
    url := "https://example.com/"
    resourceType := "document"
    postData := none
    interceptRequests := false
    interceptResponses := false
    rules := []
    rx := fun _ _ _ => none
    jsonObj? := fun _ => none
    allHeaders := .ok [("accept", "*/*")]
    emitReq := .ok ()
    verdictReq := .forward {}
    fetchResult := .ok ⟨200, [("content-type", "text/html")], "https://example.com/"⟩
    textResult := .ok "ok"
    emitRes := .ok ()
    verdictRes := .forward {}
    fulfillResult := .ok ()
    continueResult := .ok ()
    abortResult := .ok ()
    fallbackResult := .ok () }

section Sanity

example :
    (routeHandler baseEnv).ops =
      [NetOp.fetch "GET" "https://example.com/" [("accept", "*/*")] none,
       NetOp.fulfill 200 [("content-type", "text/html")] "ok"] := by decide

example : (routeHandler baseEnv).raised = false := by decide

example : pyInsert [("a", "1")] "a" "2" = [("a", "2")] := by decide
example : pyInsert [("a", "1")] "b" "2" = [("a", "1"), ("b", "2")] := by decide
example : pySplit " " "a  b" = ["a", "", "b"] := by decide
example : pySplit ":" "" = [""] := by decide
example : splitFirst ": " "Host: a: b" = some ("Host", "a: b") := by decide
example : splitFirst ":" "garbage" = none := by decide
example : pyReplace "aaa" "aa" "b" = "ba" := by decide
example : pyReplace "abc" "" "X" = "XaXbXcX" := by decide
example : pyLower "Sec-Fetch" = "sec-fetch" := by decide
example : pyStartsWith "sec-fetch" "sec-" = true := by decide
example : pyInt? "418" = some 418 := by decide
example : pyInt? "abc" = none := by decide
example : pyInt? "-5" = some (-5) := by decide

example : (forward_item [("r", {})] "r" none).2 =
    [("r", { action := some "forward", eventSet := true })] := by decide
example :
    applyMatchReplaceResLine (fun _ _ _ => none)
      [⟨true, "Response first line", "200", "418", false⟩] 200 = 418 := by decide

end Sanity

/-! ## Shared lemmas -/

theorem mem_pyInsert {d : HDict} {k v : String} {kv : String × String}
    (h : kv ∈ pyInsert d k v) : kv ∈ d ∨ kv = (k, v) := by
  unfold pyInsert at h
  split at h
  · obtain ⟨x, hx, hmap⟩ := List.mem_map.1 h
    by_cases hk : x.1 = k
    · right; simp [hk] at hmap; exact hmap.symm
    · left
      simp [hk] at hmap
      exact hmap ▸ hx
  · rcases List.mem_append.1 h with h | h
    · left; exact h
    · right; simpa using h

theorem mem_pyUpdate {d e : HDict} {kv : String × String}
    (h : kv ∈ pyUpdate d e) : kv ∈ d ∨ kv ∈ e := by
  unfold pyUpdate at h
  induction e generalizing d with
  | nil => exact Or.inl h
  | cons x xs ih =>
    rcases ih h with h' | h'
    · rcases mem_pyInsert h' with h'' | h''
      · exact Or.inl h''
      · exact Or.inr (h'' ▸ List.mem_cons_self x xs)
    · exact Or.inr (List.mem_cons_of_mem x h')

/-! ## C3: verdict acceptance in the pending registry -/

/-- C3 counterexample: `forward_item` and `drop_item` do not remove the
registry entry (removal happens later, in the woken pipeline), so a second
verdict delivered for the same parked id before the pipeline resumes is
accepted again — the resolver returns `True`, contradicting the claim that
any subsequent verdict for the same id returns false. -/
theorem c3_counterexample :
    (forward_item [("r", {})] "r" none).1 = true ∧
    (forward_item (forward_item [("r", {})] "r" none).2 "r" none).1 = true ∧
    (drop_item (forward_item [("r", {})] "r" none).2 "r").1 = true := by decide

/-- C3 amended: a verdict for an id not present in the registry returns
false and leaves the registry unchanged; a verdict for a parked id returns
true (and records the action); the entry is removed only by the woken
pipeline (`del pending_items[id]`), after which any further verdict returns
false — but verdicts repeated while the item is still parked are all
accepted. -/
theorem c3_verdict_lifecycle (reg : Registry) (itemId : String) (m : Option Modified) :
    (reg.any (fun p => p.1 = itemId) = false →
      forward_item reg itemId m = (false, reg) ∧ drop_item reg itemId = (false, reg)) ∧
    (reg.any (fun p => p.1 = itemId) = true →
      (forward_item reg itemId m).1 = true ∧ (drop_item reg itemId).1 = true) ∧
    (forward_item (pyDelete reg itemId) itemId m).1 = false ∧
    (drop_item (pyDelete reg itemId) itemId).1 = false := by
  have hdel : (pyDelete reg itemId).any (fun p => p.1 = itemId) = false := by
    rw [Bool.eq_false_iff]
    intro hany
    obtain ⟨p, hp, hpe⟩ := List.any_eq_true.mp hany
    have h1 := (List.mem_filter.mp hp).2
    simp only [Bool.not_eq_true', beq_eq_false_iff_ne, ne_eq] at h1
    exact h1 (of_decide_eq_true hpe)
  refine ⟨fun habs => ?_, fun hpres => ?_, ?_, ?_⟩
  · constructor
    · unfold forward_item; rw [habs]; rfl
    · unfold drop_item; rw [habs]; rfl
  · constructor
    · unfold forward_item; rw [hpres]; rfl
    · unfold drop_item; rw [hpres]; rfl
  · unfold forward_item; rw [hdel]; rfl
  · unfold drop_item; rw [hdel]; rfl

/-- Witness for the amended C3 at concrete registries. -/
theorem c3_verdict_lifecycle_witness :
    forward_item ([] : Registry) "r" none = (false, []) ∧
    (forward_item [("r", {})] "r" none).1 = true := by
  refine ⟨((c3_verdict_lifecycle [] "r" none).1 (by decide)).1, ?_⟩
  exact ((c3_verdict_lifecycle [("r", {})] "r" none).2.1 (by decide)).1

/-! ## C7: the replayer's forbidden-header partition -/

/-- C7 counterexample: the claim forbids every name with prefix `Proxy-`,
but the code's forbidden list only carries `proxy-authenticate` and
`proxy-authorization`; the stored header `Proxy-Connection` survives into
the safe set handed to the in-page fetch. -/
theorem c7_counterexample :
    ("Proxy-Connection", "keep-alive") ∈
      replayFetchHeaders "j" [("Proxy-Connection", "keep-alive")] := by decide

/-- C7 amended: every stored header whose lowercased name is in the code's
forbidden list (host, connection, keep-alive, proxy-authenticate,
proxy-authorization, te, trailer, transfer-encoding, upgrade, cookie,
user-agent, referer, origin, content-length, date, expect — the `Proxy-`
family is only those two names) or starts with `sec-` is excluded: no
header handed to the in-page fetch bears such a name. -/
theorem c7_safe_set_excludes_forbidden (headersJson : String) (headers : HDict)
    (kv : String × String) (hmem : kv ∈ replayFetchHeaders headersJson headers) :
    forbiddenList.contains (pyLower kv.1) = false ∧
    pyStartsWith (pyLower kv.1) "sec-" = false := by
  unfold replayFetchHeaders at hmem
  rcases mem_pyInsert hmem with h | h
  · rcases mem_pyInsert h with h' | h'
    · unfold safeHeaders at h'
      have := (List.mem_filter.1 h').2
      simp only [Bool.and_eq_true, Bool.not_eq_true'] at this
      exact this
    · subst h'; exact ⟨rfl, rfl⟩
  · subst h; exact ⟨rfl, rfl⟩

/-- Witness for the amended C7: an unforbidden stored header that does reach
the handed set. -/
theorem c7_safe_set_witness :
    forbiddenList.contains (pyLower "X-Foo") = false ∧
    pyStartsWith (pyLower "X-Foo") "sec-" = false :=
  c7_safe_set_excludes_forbidden "j" [("Host", "h"), ("X-Foo", "bar")] ("X-Foo", "bar")
    (by decide)

/-! ## C9: a colon-free rewritten header line is dropped -/

/-- C9: during header re-parse a non-empty line with no colon is silently
skipped: a rule that rewrites the line of a header (k, v) into colon-free
text deletes that header — the result is the same as if (k, v) had not been
present — rather than retaining it or raising. "No colon at all" is phrased
through the code's own two split tests (`': ' in line`, then
`':' in line`); absence of the character `:` makes both fail. -/
theorem c9_colonless_line_deletes_header (rx : RegexSub) (r : MRRule)
    (pre post : HDict) (k v : String)
    (hne : applyRuleToLine rx r (k ++ ": " ++ v) ≠ "")
    (h1 : splitFirst ": " (applyRuleToLine rx r (k ++ ": " ++ v)) = none)
    (h2 : splitFirst ":" (applyRuleToLine rx r (k ++ ": " ++ v)) = none) :
    applyHeaderRule rx (pre ++ (k, v) :: post) r = applyHeaderRule rx (pre ++ post) r := by
  have hmid : ∀ acc, reparseLine acc (applyRuleToLine rx r (k ++ ": " ++ v)) = acc := by
    intro acc
    unfold reparseLine
    rw [h1, h2]
  simp only [applyHeaderRule, reparseHeaders, headerLines, List.map_append, List.map_cons,
    List.filter_append, List.foldl_append]
  rw [List.filter_cons, if_pos (decide_eq_true hne)]
  simp only [List.foldl_cons, hmid]

/-- Witness for C9: a literal rule rewriting the whole line `X-Test: 1` to
`garbage` removes the `X-Test` header. -/
theorem c9_witness :
    applyHeaderRule (fun _ _ _ => none) [("A", "1"), ("X-Test", "1"), ("B", "2")]
      ⟨true, "Request header", "X-Test: 1", "garbage", false⟩ =
    applyHeaderRule (fun _ _ _ => none) [("A", "1"), ("B", "2")]
      ⟨true, "Request header", "X-Test: 1", "garbage", false⟩ :=
  c9_colonless_line_deletes_header (fun _ _ _ => none)
    ⟨true, "Request header", "X-Test: 1", "garbage", false⟩
    [("A", "1")] [("B", "2")] "X-Test" "1" (by decide) (by decide) (by decide)

/-! ## C8: a raising rule is skipped, neighbours still run -/

theorem applyRuleToLine_of_raise {rx : RegexSub} {r : MRRule} {line : String}
    (hreg : r.isRegex = true) (hfail : rx r.matchPat r.replace line = none) :
    applyRuleToLine rx r line = line := by
  simp [applyRuleToLine, hreg, hfail]

theorem map_self_of_id {α : Type} {f : α → α} {l : List α}
    (h : ∀ a ∈ l, f a = a) : l.map f = l := by
  induction l with
  | nil => rfl
  | cons x xs ih =>
    rw [List.map_cons, h x (List.mem_cons_self x xs),
      ih fun a ha => h a (List.mem_cons_of_mem x ha)]

theorem filter_self_of_pos {α : Type} {p : α → Bool} {l : List α}
    (h : ∀ a ∈ l, p a = true) : l.filter p = l := by
  induction l with
  | nil => rfl
  | cons x xs ih =>
    rw [List.filter_cons_of_pos (h x (List.mem_cons_self x xs)),
      ih fun a ha => h a (List.mem_cons_of_mem x ha)]

/-- Linearise-then-reparse round-trip: over dicts with pairwise-distinct
keys whose lines split back to themselves, the re-parse rebuilds the dict. -/
theorem reparse_headerLines_go {h : HDict} (acc : HDict)
    (hnodup : (h.map Prod.fst).Nodup)
    (hlines : ∀ kv ∈ h, splitFirst ": " (kv.1 ++ ": " ++ kv.2) = some kv)
    (hdisj : ∀ kv ∈ h, ∀ kv' ∈ acc, kv.1 ≠ kv'.1) :
    (headerLines h).foldl reparseLine acc = acc ++ h := by
  induction h generalizing acc with
  | nil => simp [headerLines]
  | cons x xs ih =>
    have hnd := hnodup
    rw [List.map_cons, List.nodup_cons] at hnd
    rw [show headerLines (x :: xs) = (x.1 ++ ": " ++ x.2) :: headerLines xs from rfl,
      List.foldl_cons]
    have hline := hlines x (List.mem_cons_self x xs)
    have habs : acc.any (fun kv => kv.1 = x.1) = false := by
      rw [Bool.eq_false_iff]
      intro hany
      obtain ⟨p, hp, hpe⟩ := List.any_eq_true.mp hany
      exact hdisj x (List.mem_cons_self x xs) p hp (of_decide_eq_true hpe).symm
    have hstep : reparseLine acc (x.1 ++ ": " ++ x.2) = acc ++ [x] := by
      simp only [reparseLine, hline, pyInsert, habs, Bool.false_eq_true, if_false]
    rw [hstep]
    have hdisj' : ∀ kv ∈ xs, ∀ kv' ∈ acc ++ [x], kv.1 ≠ kv'.1 := by
      intro kv hkv kv' hkv'
      rcases List.mem_append.1 hkv' with hin | hin
      · exact hdisj kv (List.mem_cons_of_mem x hkv) kv' hin
      · have hx : kv' = x := by simpa using hin
        subst hx
        intro heq
        exact hnd.1 (heq ▸ List.mem_map_of_mem Prod.fst hkv)
    have hxs := ih (acc ++ [x]) hnd.2
      (fun kv hkv => hlines kv (List.mem_cons_of_mem x hkv)) hdisj'
    rw [hxs, List.append_assoc]
    rfl

/-- C8: a rule whose regex substitution raises is skipped while the
surrounding rules still run. First conjunct: for the string slices (bodies
and first lines), a raising rule in the middle of a rule list leaves the
slice exactly as the rules around it produce it. Second conjunct: for the
header slice, a rule that raises on every linearised line leaves the dict
unchanged (over dicts with distinct keys whose lines re-parse to
themselves, which covers every Python header dict). Third conjunct: the
fold version of the second. No error is surfaced: the embedded engine is a
total function. -/
theorem c8_raising_rule_is_skipped (rx : RegexSub) (r : MRRule) (hreg : r.isRegex = true)
    (pre post : List MRRule) (body : String) (h : HDict) :
    (rx r.matchPat r.replace (pre.foldl (fun s q => applyRuleToLine rx q s) body) = none →
      (pre ++ r :: post).foldl (fun s q => applyRuleToLine rx q s) body =
        (pre ++ post).foldl (fun s q => applyRuleToLine rx q s) body) ∧
    ((∀ l ∈ headerLines h, rx r.matchPat r.replace l = none) →
      (h.map Prod.fst).Nodup →
      (∀ kv ∈ h, splitFirst ": " (kv.1 ++ ": " ++ kv.2) = some kv) →
      applyHeaderRule rx h r = h) ∧
    (∀ preH postH : List MRRule,
      (∀ l ∈ headerLines (preH.foldl (applyHeaderRule rx) h), rx r.matchPat r.replace l = none) →
      ((preH.foldl (applyHeaderRule rx) h).map Prod.fst).Nodup →
      (∀ kv ∈ preH.foldl (applyHeaderRule rx) h,
        splitFirst ": " (kv.1 ++ ": " ++ kv.2) = some kv) →
      (preH ++ r :: postH).foldl (applyHeaderRule rx) h =
        (preH ++ postH).foldl (applyHeaderRule rx) h) := by
  have hid : ∀ h' : HDict,
      (∀ l ∈ headerLines h', rx r.matchPat r.replace l = none) →
      (h'.map Prod.fst).Nodup →
      (∀ kv ∈ h', splitFirst ": " (kv.1 ++ ": " ++ kv.2) = some kv) →
      applyHeaderRule rx h' r = h' := by
    intro h' hfail hnodup hlines
    unfold applyHeaderRule
    have hmap : (headerLines h').map (applyRuleToLine rx r) = headerLines h' := by
      refine map_self_of_id fun l hl => ?_
      exact applyRuleToLine_of_raise hreg (hfail l hl)
    have hfil : (headerLines h').filter (fun l => l ≠ "") = headerLines h' := by
      refine filter_self_of_pos fun l hl => ?_
      obtain ⟨kv, hkv, hline⟩ :=
        List.mem_map.1 (show l ∈ h'.map (fun kv => kv.1 ++ ": " ++ kv.2) from hl)
      refine decide_eq_true ?_
      intro hemp
      have := hlines kv hkv
      rw [hline, hemp] at this
      exact Option.noConfusion ((by decide : splitFirst ": " "" = none) ▸ this)
    rw [hmap, hfil]
    simpa [reparseHeaders] using reparse_headerLines_go [] hnodup hlines (by simp)
  refine ⟨fun hfail => ?_, hid h, fun preH postH hfail hnodup hlines => ?_⟩
  · rw [List.foldl_append, List.foldl_append, List.foldl_cons,
      applyRuleToLine_of_raise hreg hfail]
  · rw [List.foldl_append, List.foldl_append, List.foldl_cons,
      hid (preH.foldl (applyHeaderRule rx) h) hfail hnodup hlines]

/-- Witness for C8 with a substitution that raises on every input (e.g. the
non-compiling pattern `(`): the raising rule is a no-op on a body fold and
on a header dict. -/
theorem c8_witness :
    ([⟨true, "Request body", "(", "x", true⟩,
      ⟨true, "Request body", "a", "b", false⟩] : List MRRule).foldl
        (fun s q => applyRuleToLine (fun _ _ _ => none) q s) "aa" =
      ([⟨true, "Request body", "a", "b", false⟩] : List MRRule).foldl
        (fun s q => applyRuleToLine (fun _ _ _ => none) q s) "aa" ∧
    applyHeaderRule (fun _ _ _ => none) [("Host", "a")]
      ⟨true, "Request header", "(", "x", true⟩ = [("Host", "a")] := by
  constructor
  · exact (c8_raising_rule_is_skipped (fun _ _ _ => none)
      ⟨true, "Request body", "(", "x", true⟩ rfl []
      [⟨true, "Request body", "a", "b", false⟩] "aa" []).1 rfl
  · exact (c8_raising_rule_is_skipped (fun _ _ _ => none)
      ⟨true, "Request header", "(", "x", true⟩ rfl [] [] "" [("Host", "a")]).2.1
      (by decide) (by decide) (by decide)

/-! ## C6: first-line synthesis, re-parse and retention -/

/-- C6: for first-line rules the engine synthesises the virtual line
(`"METHOD URL HTTP/1.1"` or `"HTTP/1.1 STATUS"`), folds all enabled rules of
that slice over it in order, and re-parses by splitting on single spaces:
with fewer than two tokens the original method/url (or status) is retained;
with two or more, the request takes the first two tokens, and the response
coerces the second token with `int(...)`, retaining the original status
when coercion fails. -/
theorem c6_first_line_retention (rx : RegexSub) (rules : List MRRule)
    (method url : String) (status : Int) :
    (rulesFor rules "Request first line" ≠ [] →
      ((pySplit " " ((rulesFor rules "Request first line").foldl
          (fun s r => applyRuleToLine rx r s) (method ++ " " ++ url ++ " HTTP/1.1"))).length < 2 →
        applyMatchReplaceReqLine rx rules method url = (method, url)) ∧
      (∀ m u rest,
        pySplit " " ((rulesFor rules "Request first line").foldl
          (fun s r => applyRuleToLine rx r s) (method ++ " " ++ url ++ " HTTP/1.1")) =
            m :: u :: rest →
        applyMatchReplaceReqLine rx rules method url = (m, u))) ∧
    (rulesFor rules "Response first line" ≠ [] →
      ((pySplit " " ((rulesFor rules "Response first line").foldl
          (fun s r => applyRuleToLine rx r s) ("HTTP/1.1 " ++ toString status))).length < 2 →
        applyMatchReplaceResLine rx rules status = status) ∧
      (∀ a s rest,
        pySplit " " ((rulesFor rules "Response first line").foldl
          (fun s r => applyRuleToLine rx r s) ("HTTP/1.1 " ++ toString status)) =
            a :: s :: rest →
        (pyInt? s = none → applyMatchReplaceResLine rx rules status = status) ∧
        ∀ n, pyInt? s = some n → applyMatchReplaceResLine rx rules status = n)) := by
  constructor
  · intro hne
    have hemp : (rulesFor rules "Request first line").isEmpty = false := by
      rwa [List.isEmpty_eq_false, ne_eq]
    constructor
    · intro hshort
      unfold applyMatchReplaceReqLine
      simp only [hemp, Bool.false_eq_true, if_false]
      split
      · rename_i m u rest heq
        rw [heq] at hshort
        simp only [List.length_cons] at hshort
        omega
      · rfl
    · intro m u rest heq
      unfold applyMatchReplaceReqLine
      simp only [hemp, Bool.false_eq_true, if_false]
      split
      · rename_i m' u' rest' heq'
        rw [heq] at heq'
        injection heq' with h1 h2
        injection h2 with h2 h3
        rw [h1, h2]
      · rename_i hno
        exact absurd heq (hno m u rest)
  · intro hne
    have hemp : (rulesFor rules "Response first line").isEmpty = false := by
      rwa [List.isEmpty_eq_false, ne_eq]
    constructor
    · intro hshort
      unfold applyMatchReplaceResLine
      simp only [hemp, Bool.false_eq_true, if_false]
      split
      · rename_i a s rest heq
        rw [heq] at hshort
        simp only [List.length_cons] at hshort
        omega
      · rfl
    · intro a s rest heq
      constructor
      · intro hint
        unfold applyMatchReplaceResLine
        simp only [hemp, Bool.false_eq_true, if_false]
        split
        · rename_i a' s' rest' heq'
          rw [heq] at heq'
          injection heq' with h1 h2
          injection h2 with h2 h3
          rw [← h2, hint]
        · rename_i hno
          exact absurd heq (hno a s rest)
      · intro n hint
        unfold applyMatchReplaceResLine
        simp only [hemp, Bool.false_eq_true, if_false]
        split
        · rename_i a' s' rest' heq'
          rw [heq] at heq'
          injection heq' with h1 h2
          injection h2 with h2 h3
          rw [← h2, hint]
        · rename_i hno
          exact absurd heq (hno a s rest)

/-- Witness for C6: a rule collapsing the request line to one token retains
method and url; a rule rewriting the status token to a non-integer retains
the status; a rule rewriting `200` to `418` delivers 418. -/
theorem c6_first_line_retention_witness :
    applyMatchReplaceReqLine (fun _ _ _ => none)
      [⟨true, "Request first line", "GET /x HTTP/1.1", "ONETOKEN", false⟩] "GET" "/x" =
      ("GET", "/x") ∧
    applyMatchReplaceResLine (fun _ _ _ => none)
      [⟨true, "Response first line", "200", "teapot", false⟩] 200 = 200 := by
  constructor
  · exact ((c6_first_line_retention (fun _ _ _ => none)
      [⟨true, "Request first line", "GET /x HTTP/1.1", "ONETOKEN", false⟩]
      "GET" "/x" 200).1 (by decide)).1 (by decide)
  · exact (((c6_first_line_retention (fun _ _ _ => none)
      [⟨true, "Response first line", "200", "teapot", false⟩]
      "GET" "/x" 200).2 (by decide)).2 "HTTP/1.1" "teapot" [] (by decide)).1 (by decide)

/-! ## Pipeline helper lemmas -/

theorem routeHandler_events (env : Env) :
    (routeHandler env).events = (routeHandlerCore env).events := by
  cases h : (routeHandlerCore env).raised <;> simp [routeHandler, h]

theorem routeHandler_parkedReq (env : Env) :
    (routeHandler env).parkedReq = (routeHandlerCore env).parkedReq := by
  cases h : (routeHandlerCore env).raised <;> simp [routeHandler, h]

theorem routeHandler_ops_raised (env : Env)
    (h : (routeHandlerCore env).raised = true) :
    (routeHandler env).ops = (routeHandlerCore env).ops ++ [NetOp.fallbackContinue] := by
  simp [routeHandler, h]

theorem routeHandler_ops_ok (env : Env)
    (h : (routeHandlerCore env).raised = false) :
    (routeHandler env).ops = (routeHandlerCore env).ops := by
  simp [routeHandler, h]

theorem routeHandler_ops_sub (env : Env) (op : NetOp)
    (hop : op ∈ (routeHandler env).ops) :
    op ∈ (routeHandlerCore env).ops ∨ op = NetOp.fallbackContinue := by
  cases h : (routeHandlerCore env).raised with
  | false =>
    rw [routeHandler_ops_ok env h] at hop
    exact Or.inl hop
  | true =>
    rw [routeHandler_ops_raised env h] at hop
    rcases List.mem_append.1 hop with h' | h'
    · exact Or.inl h'
    · exact Or.inr (List.mem_singleton.1 h')

theorem responsePhase_parkedReq (env : Env) (ev : List Event) (ops : List NetOp)
    (p : Bool) (resp : FetchResponse) :
    (responsePhase env ev ops p resp).parkedReq = p := by
  unfold responsePhase
  repeat first | rfl | split

theorem dispatchPhase_parkedReq (env : Env) (ev : List Event) (p byp : Bool)
    (M u : String) (H : HDict) (B : Option String) :
    (dispatchPhase env ev p byp M u H B).parkedReq = p := by
  unfold dispatchPhase
  repeat first | rfl | apply responsePhase_parkedReq | split

theorem responsePhase_req_events (env : Env) (ev : List Event) (ops : List NetOp)
    (p : Bool) (resp : FetchResponse) (d : ReqData)
    (h : Event.request d ∈ (responsePhase env ev ops p resp).events) :
    Event.request d ∈ ev := by
  unfold responsePhase at h
  repeat' split at h
  all_goals simpa [List.mem_append] using h

theorem dispatchPhase_req_events (env : Env) (ev : List Event) (p byp : Bool)
    (M u : String) (H : HDict) (B : Option String) (d : ReqData)
    (h : Event.request d ∈ (dispatchPhase env ev p byp M u H B).events) :
    Event.request d ∈ ev := by
  unfold dispatchPhase at h
  repeat' split at h
  all_goals first
    | exact h
    | exact responsePhase_req_events _ _ _ _ _ _ h

/-! ## C2: the passthrough fallback and its failure -/

/-- C2 counterexample: an exception in step 4 (the capture emit raises) leads
to the bare passthrough `route.continue_()`; with the passthrough itself
failing, the code's `except: pass` does nothing further — in particular the
operation is NOT aborted, contradicting the claim's second half. -/
theorem c2_counterexample :
    (routeHandler { baseEnv with emitReq := .error (), fallbackResult := .error () }).ops =
      [NetOp.fallbackContinue] ∧
    NetOp.abort ∉
      (routeHandler { baseEnv with emitReq := .error (), fallbackResult := .error () }).ops := by
  decide

/-- C2 amended: any exception escaping the handler's `try` block leads to
exactly one bare `route.continue_()` passthrough attempt, appended after the
operations already performed; a failure of that passthrough is silently
swallowed (`except: pass`) — the operation is never aborted in response, and
the outcome is independent of whether the passthrough succeeds. -/
theorem c2_fallback_no_abort (env : Env)
    (hraised : (routeHandlerCore env).raised = true) :
    (routeHandler env).ops = (routeHandlerCore env).ops ++ [NetOp.fallbackContinue] ∧
    (∀ fb, routeHandler { env with fallbackResult := fb } = routeHandler env) ∧
    (NetOp.abort ∉ (routeHandlerCore env).ops → NetOp.abort ∉ (routeHandler env).ops) := by
  have h1 : (routeHandler env).ops = (routeHandlerCore env).ops ++ [NetOp.fallbackContinue] := by
    unfold routeHandler
    rw [if_pos hraised]
  refine ⟨h1, fun fb => rfl, fun habs hmem => ?_⟩
  rw [h1] at hmem
  rcases List.mem_append.1 hmem with h | h
  · exact habs h
  · exact NetOp.noConfusion (List.mem_singleton.1 h)

/-- Witness for the amended C2 at a concrete raising environment. -/
theorem c2_fallback_no_abort_witness :
    (routeHandler { baseEnv with emitReq := .error () }).ops =
      (routeHandlerCore { baseEnv with emitReq := .error () }).ops ++
        [NetOp.fallbackContinue] :=
  (c2_fallback_no_abort { baseEnv with emitReq := .error () } (by decide)).1

/-! ## C4: the pending mark versus actual parking -/

/-- C4 counterexample: with `intercept_requests` on and a bypass header
present, the pipeline does not park and continues immediately — yet the
capture event it emits still carries `pending=true`, because `req_data`
fixes `pending = self.intercept_requests` before the channel-header scan.
The claim says such an event is emitted without the pending mark. -/
theorem c4_counterexample :
    (routeHandler { baseEnv with
        interceptRequests := true
        allHeaders := .ok [("x-waf-bypass-repeater", "1"), ("x-test", "a")] }).parkedReq
      = false ∧
    (routeHandler { baseEnv with
        interceptRequests := true
        allHeaders := .ok [("x-waf-bypass-repeater", "1"), ("x-test", "a")] }).events.any
      (fun e => match e with
        | Event.request d => d.pending
        | Event.response _ => false) = true := by
  decide

/-- C4 amended: the request capture event's `pending` mark always equals the
`intercept_requests` flag, regardless of bypass mode, while the pipeline
parks exactly when `intercept_requests` is on AND bypass mode is off; so
with interception on and a bypass header present, a `pending=true` event is
emitted even though the pipeline continues immediately without parking. -/
theorem c4_pending_vs_parking (env : Env) (hs : HDict)
    (hok : env.allHeaders = .ok hs) :
    (routeHandler env).parkedReq =
      (env.interceptRequests &&
        !(scanChannelHeaders env.jsonObj?
            (applyMatchReplaceHeaders env.rx env.rules "Request header" hs)).1) ∧
    ∀ d, Event.request d ∈ (routeHandler env).events → d.pending = env.interceptRequests := by
  rw [routeHandler_parkedReq, routeHandler_events]
  constructor
  · cases hcnd : (env.interceptRequests &&
        !(scanChannelHeaders env.jsonObj?
            (applyMatchReplaceHeaders env.rx env.rules "Request header" hs)).1) with
    | true =>
      unfold routeHandlerCore
      rw [hok]
      dsimp only
      rw [if_pos hcnd]
      repeat' split
      all_goals simp [dispatchPhase_parkedReq]
    | false =>
      unfold routeHandlerCore
      rw [hok]
      dsimp only
      rw [if_neg (by simp [hcnd])]
      repeat' split
      all_goals simp [dispatchPhase_parkedReq]
  · intro d hd
    unfold routeHandlerCore at hd
    rw [hok] at hd
    dsimp only at hd
    repeat' split at hd
    all_goals try dsimp only at hd
    all_goals
      first
      | exact absurd hd (List.not_mem_nil _)
      | (first
          | replace hd := dispatchPhase_req_events _ _ _ _ _ _ _ _ _ hd
          | skip
         rw [List.mem_singleton] at hd
         injection hd with h'
         subst h'
         rfl)

/-- Witness for the amended C4 at a concrete environment with interception
on and no bypass header: the pipeline parks and the event is pending. -/
theorem c4_pending_vs_parking_witness :
    (routeHandler { baseEnv with interceptRequests := true }).parkedReq =
      (true && !(scanChannelHeaders baseEnv.jsonObj?
          (applyMatchReplaceHeaders baseEnv.rx baseEnv.rules "Request header"
            [("accept", "*/*")])).1) := by
  exact (c4_pending_vs_parking { baseEnv with interceptRequests := true }
    [("accept", "*/*")] rfl).1

/-! ## C5: forward overrides reach dispatch and delivery -/

/-- C5: a parked request resolved `Forward` with method/headers/body
overrides is dispatched via `route.fetch` with exactly the overridden
method, headers and body; a parked response resolved `Forward` with
status/headers/body overrides is delivered via `route.fulfill` with exactly
the overridden status, headers and body. -/
theorem c5_forward_overrides (env : Env) (hs : HDict) (M : String) (H : HDict)
    (B : String) (S : Int) (H2 : HDict) (B2 : String) (resp : FetchResponse)
    (hok : env.allHeaders = .ok hs)
    (hir : env.interceptRequests = true)
    (hbyp : (scanChannelHeaders env.jsonObj?
        (applyMatchReplaceHeaders env.rx env.rules "Request header" hs)).1 = false)
    (hemit : env.emitReq = .ok ())
    (hv : env.verdictReq = Verdict.forward ⟨some M, some H, some B, none⟩)
    (hfetch : env.fetchResult = .ok resp)
    (hires : env.interceptResponses = true)
    (hemit2 : env.emitRes = .ok ())
    (hv2 : env.verdictRes = Verdict.forward ⟨none, some H2, some B2, some S⟩)
    (hful : env.fulfillResult = .ok ()) :
    (routeHandler env).ops =
      [NetOp.fetch M (applyMatchReplaceReqLine env.rx env.rules env.method env.url).2
        H (some B),
       NetOp.fulfill S H2 B2] := by
  simp [routeHandler, routeHandlerCore, dispatchPhase, responsePhase,
    hok, hir, hbyp, hemit, hv, hfetch, hires, hemit2, hv2, hful]

/-- Witness for C5: concrete overrides show up verbatim in the dispatched
fetch and the delivered fulfill. -/
theorem c5_forward_overrides_witness :
    (routeHandler { baseEnv with
        interceptRequests := true
        interceptResponses := true
        verdictReq := Verdict.forward ⟨some "POST", some [("x", "y")], some "hi", none⟩
        verdictRes := Verdict.forward ⟨none, some [("a", "b")], some "teapot", some 418⟩ }).ops =
      [NetOp.fetch "POST" "https://example.com/" [("x", "y")] (some "hi"),
       NetOp.fulfill 418 [("a", "b")] "teapot"] := by
  exact c5_forward_overrides _ [("accept", "*/*")] "POST" [("x", "y")] "hi" 418 [("a", "b")]
    "teapot" ⟨200, [("content-type", "text/html")], "https://example.com/"⟩
    rfl rfl (by decide) rfl rfl rfl rfl rfl rfl rfl

/-! ## C1: reserved channel headers on the egress wire -/

theorem responsePhase_egress (env : Env) (ev : List Event) (ops : List NetOp)
    (p : Bool) (resp : FetchResponse) (op : NetOp)
    (hop : op ∈ (responsePhase env ev ops p resp).ops) (hd : HDict)
    (he : egressHeaders op = some hd) : op ∈ ops := by
  unfold responsePhase at hop
  repeat' split at hop
  all_goals
    first
    | exact hop
    | (rcases List.mem_append.1 hop with h1 | h1
       · exact h1
       · rw [List.mem_singleton] at h1
         subst h1
         simp [egressHeaders] at he)

theorem dispatchPhase_egress (env : Env) (ev : List Event) (p byp : Bool)
    (M u : String) (H : HDict) (B : Option String) (op : NetOp)
    (hop : op ∈ (dispatchPhase env ev p byp M u H B).ops) (hd : HDict)
    (he : egressHeaders op = some hd) :
    ∀ kv ∈ hd, kv ∈ H := by
  unfold dispatchPhase at hop
  repeat' split at hop
  all_goals (
    try replace hop := responsePhase_egress _ _ _ _ _ _ hop hd he
    simp only [List.mem_cons, List.mem_singleton, List.not_mem_nil, or_false] at hop
    first
      | subst hop
      | rcases hop with (rfl | rfl)
    all_goals first
      | exact Option.noConfusion he
      | (simp only [egressHeaders, Option.some.injEq] at he;
         subst he;
         intro kv hkv;
         first
           | exact hkv
           | exact (List.mem_filter.1 hkv).1))

theorem dispatchPhase_reservedFree (env : Env) (ev : List Event) (p byp : Bool)
    (M u : String) (H : HDict) (B : Option String) (op : NetOp)
    (hop : op ∈ (dispatchPhase env ev p byp M u H B).ops)
    (hH : ∀ kv ∈ H, reservedName kv.1 = false) (hd : HDict)
    (he : egressHeaders op = some hd) :
    ∀ kv ∈ hd, reservedName kv.1 = false :=
  fun kv hkv => hH kv (dispatchPhase_egress env ev p byp M u H B op hop hd he kv hkv)

theorem reservedFree_strip_update {fh ov : HDict}
    (hov : ∀ kv ∈ ov, reservedName kv.1 = false) :
    ∀ kv ∈ pyUpdate (stripReserved fh) ov, reservedName kv.1 = false := by
  intro kv hkv
  rcases mem_pyUpdate hkv with h | h
  · have h2 := (List.mem_filter.1 h).2
    simpa using h2
  · exact hov kv h

/-- C1 counterexample: a request whose `X-Antigravity-Override` value is
malformed JSON (`json.loads` raises, no bypass header present) leaves the
strip condition false, so the reserved header itself is dispatched to the
network through `route.fetch`. The claim says the final header set never
contains it. -/
theorem c1_counterexample :
    (routeHandler { baseEnv with
        allHeaders := .ok [("x-antigravity-override", "oops"), ("x-test", "a")] }).ops.any
      (fun op => match op with
        | NetOp.fetch _ _ h _ => h.any (fun kv => reservedName kv.1)
        | _ => false) = true := by
  decide

/-- C1 amended: the reserved headers are stripped only when the scan sets
bypass mode or yields a non-empty parsed override object; under that
condition, and provided neither the override object nor a forward verdict's
header override carries a reserved name, every header set dispatched through
`route.fetch` or `route.continue_` is free of both reserved names. When the
override value is malformed JSON and no bypass header is present, the
`X-Antigravity-Override` header itself is dispatched unchanged (see the
counterexample); the passthrough fallback forwards the original headers
unmodified. -/
theorem c1_reserved_headers (env : Env) (hs : HDict)
    (hok : env.allHeaders = .ok hs)
    (hcond : (scanChannelHeaders env.jsonObj?
          (applyMatchReplaceHeaders env.rx env.rules "Request header" hs)).1 = true ∨
        (scanChannelHeaders env.jsonObj?
          (applyMatchReplaceHeaders env.rx env.rules "Request header" hs)).2 ≠ [])
    (hov : ∀ kv ∈ (scanChannelHeaders env.jsonObj?
          (applyMatchReplaceHeaders env.rx env.rules "Request header" hs)).2,
        reservedName kv.1 = false)
    (hmod : ∀ m hdrs, env.verdictReq = Verdict.forward m → m.headers = some hdrs →
        ∀ kv ∈ hdrs, reservedName kv.1 = false) :
    ∀ op ∈ (routeHandler env).ops, ∀ hd, egressHeaders op = some hd →
      ∀ kv ∈ hd, reservedName kv.1 = false := by
  intro op hop hd he
  rcases routeHandler_ops_sub env op hop with hop' | heq
  swap
  · subst heq
    simp [egressHeaders] at he
  have hcnd : ((scanChannelHeaders env.jsonObj?
        (applyMatchReplaceHeaders env.rx env.rules "Request header" hs)).1 ||
      !(scanChannelHeaders env.jsonObj?
        (applyMatchReplaceHeaders env.rx env.rules "Request header" hs)).2.isEmpty) = true := by
    rcases hcond with h | h
    · simp [h]
    · simp [List.isEmpty_eq_false.2 h]
  have hfinal : ∀ kv ∈ pyUpdate
      (stripReserved (applyMatchReplaceHeaders env.rx env.rules "Request header" hs))
      (scanChannelHeaders env.jsonObj?
        (applyMatchReplaceHeaders env.rx env.rules "Request header" hs)).2,
      reservedName kv.1 = false := reservedFree_strip_update hov
  unfold routeHandlerCore at hop'
  rw [hok] at hop'
  dsimp only at hop'
  rw [if_pos hcnd] at hop'
  split at hop'
  · split at hop'
    · simp at hop'
    · split at hop'
      · split at hop' <;> (
          rw [List.mem_singleton] at hop'
          subst hop'
          simp [egressHeaders] at he)
      · rename_i m heqv
        cases hmh : m.headers with
        | some hdrs =>
          rw [hmh] at hop'
          simp only [Option.getD_some] at hop'
          exact dispatchPhase_reservedFree _ _ _ _ _ _ _ _ op hop'
            (hmod m hdrs heqv hmh) hd he
        | none =>
          rw [hmh] at hop'
          simp only [Option.getD_none] at hop'
          exact dispatchPhase_reservedFree _ _ _ _ _ _ _ _ op hop' hfinal hd he
  · split at hop'
    · simp at hop'
    · exact dispatchPhase_reservedFree _ _ _ _ _ _ _ _ op hop' hfinal hd he

/-- Witness for the amended C1: a bypass-mode request with a harmless extra
header dispatches exactly that header, and its name is not reserved. -/
theorem c1_reserved_headers_witness :
    reservedName "x-test" = false :=
  c1_reserved_headers
    { baseEnv with allHeaders := .ok [("X-WAF-Bypass-Repeater", "1"), ("x-test", "a")] }
    [("X-WAF-Bypass-Repeater", "1"), ("x-test", "a")] rfl (Or.inl (by decide)) (by decide)
    (fun m hdrs hv hm => by cases hv; exact Option.noConfusion hm)
    (NetOp.continueWith "GET" "https://example.com/" [("x-test", "a")] none) (by decide)
    [("x-test", "a")] (by decide) ("x-test", "a") (by decide)

/-! ## C10: the rewrite never mutates its inputs -/

theorem readH_append_left {heap : Heap} {d : HDict} {i : Nat} (h : i < heap.length) :
    readH (heap ++ [d]) i = readH heap i := by
  unfold readH
  simp [List.getD_eq_getElem?_getD, List.getElem?_append, h]

theorem readH_append_self (heap : Heap) (d : HDict) :
    readH (heap ++ [d]) heap.length = d := by
  unfold readH
  simp [List.getD_eq_getElem?_getD, List.getElem?_concat_length]

theorem readH_write_ne {heap : Heap} {r i : Nat} (h : r ≠ i) (d : HDict) :
    readH (writeH heap r d) i = readH heap i := by
  unfold readH writeH
  simp [List.getD_eq_getElem?_getD, List.getElem?_set_ne h]

theorem readH_write_self {heap : Heap} {r : Nat} (h : r < heap.length) (d : HDict) :
    readH (writeH heap r d) r = d := by
  unfold readH writeH
  simp [List.getD_eq_getElem?_getD, List.getElem?_set_eq_of_lt d h]

theorem fillLine_length (ref : Nat) (hp : Heap) (line : String) :
    (fillLine ref hp line).length = hp.length := by
  unfold fillLine
  repeat' split
  all_goals simp [writeH]

theorem fillLine_frame {ref i : Nat} (hne : ref ≠ i) (hp : Heap) (line : String) :
    readH (fillLine ref hp line) i = readH hp i := by
  unfold fillLine
  repeat' split
  all_goals first | rfl | exact readH_write_ne hne _

theorem fillLine_read {ref : Nat} {hp : Heap} (h : ref < hp.length) (line : String) :
    readH (fillLine ref hp line) ref = reparseLine (readH hp ref) line := by
  unfold fillLine reparseLine
  repeat' split
  all_goals first | rfl | exact readH_write_self h _

theorem fillFold_length (ref : Nat) (lines : List String) :
    ∀ hp : Heap, (lines.foldl (fillLine ref) hp).length = hp.length := by
  induction lines with
  | nil => intro hp; rfl
  | cons l ls ih =>
    intro hp
    rw [List.foldl_cons, ih, fillLine_length]

theorem fillFold_frame {ref i : Nat} (hne : ref ≠ i) (lines : List String) :
    ∀ hp : Heap, readH (lines.foldl (fillLine ref) hp) i = readH hp i := by
  induction lines with
  | nil => intro hp; rfl
  | cons l ls ih =>
    intro hp
    rw [List.foldl_cons, ih, fillLine_frame hne]

theorem fillFold_read {ref : Nat} (lines : List String) :
    ∀ hp : Heap, ref < hp.length →
      readH (lines.foldl (fillLine ref) hp) ref = lines.foldl reparseLine (readH hp ref) := by
  induction lines with
  | nil => intro hp _; rfl
  | cons l ls ih =>
    intro hp h
    rw [List.foldl_cons, List.foldl_cons,
      ih (fillLine ref hp l) (by rw [fillLine_length]; exact h), fillLine_read h]

theorem applyHeaderRuleH_spec (rx : RegexSub) (r : MRRule) (heap0 : Heap) (st : Heap × Nat)
    (hlen : heap0.length ≤ st.1.length)
    (hframe : ∀ i, i < heap0.length → readH st.1 i = readH heap0 i)
    (_hvalid : st.2 < st.1.length) :
    heap0.length ≤ (applyHeaderRuleH rx st r).1.length ∧
    (∀ i, i < heap0.length → readH (applyHeaderRuleH rx st r).1 i = readH heap0 i) ∧
    (applyHeaderRuleH rx st r).2 < (applyHeaderRuleH rx st r).1.length ∧
    readH (applyHeaderRuleH rx st r).1 (applyHeaderRuleH rx st r).2 =
      applyHeaderRule rx (readH st.1 st.2) r := by
  unfold applyHeaderRuleH allocH
  dsimp only
  refine ⟨?_, ?_, ?_, ?_⟩
  · rw [fillFold_length]
    simp only [List.length_append, List.length_cons, List.length_nil]
    omega
  · intro i hi
    have hne : st.1.length ≠ i := by omega
    rw [fillFold_frame hne, readH_append_left (by omega)]
    exact hframe i hi
  · rw [fillFold_length]
    simp only [List.length_append, List.length_cons, List.length_nil]
    omega
  · rw [fillFold_read _ _ (by simp), readH_append_self]
    rfl

theorem foldH_spec (rx : RegexSub) (rs : List MRRule) (heap0 : Heap) :
    ∀ st : Heap × Nat,
      heap0.length ≤ st.1.length →
      (∀ i, i < heap0.length → readH st.1 i = readH heap0 i) →
      st.2 < st.1.length →
      heap0.length ≤ (rs.foldl (applyHeaderRuleH rx) st).1.length ∧
      (∀ i, i < heap0.length →
        readH (rs.foldl (applyHeaderRuleH rx) st).1 i = readH heap0 i) ∧
      (rs.foldl (applyHeaderRuleH rx) st).2 < (rs.foldl (applyHeaderRuleH rx) st).1.length ∧
      readH (rs.foldl (applyHeaderRuleH rx) st).1 (rs.foldl (applyHeaderRuleH rx) st).2 =
        rs.foldl (applyHeaderRule rx) (readH st.1 st.2) := by
  induction rs with
  | nil => exact fun st h1 h2 h3 => ⟨h1, h2, h3, rfl⟩
  | cons r rs ih =>
    intro st h1 h2 h3
    have hstep := applyHeaderRuleH_spec rx r heap0 st h1 h2 h3
    have hrec := ih (applyHeaderRuleH rx st r) hstep.1 hstep.2.1 hstep.2.2.1
    refine ⟨hrec.1, hrec.2.1, hrec.2.2.1, ?_⟩
    rw [List.foldl_cons, List.foldl_cons, hrec.2.2.2, hstep.2.2.2]

/-- C10: `_apply_match_replace` never mutates its inputs. The header branch —
the only branch that writes to any dict — run against the explicit heap
leaves every pre-existing heap cell unchanged (in particular the argument
dict and any dict reachable from the shared rule list), and the dict it
returns is exactly the value the pure embedding computes; writes only ever
target the freshly allocated `headers`/`new_headers` cells. The body branch
manipulates only immutable strings, the first-line branches only read their
argument and return a fresh literal (or the argument itself, unwritten), and
the rule list is only iterated. -/
theorem c10_no_input_mutation (rx : RegexSub) (rules : List MRRule) (item : String)
    (heap : Heap) (dataRef : Nat) :
    (∀ i, i < heap.length →
      readH (applyMatchReplaceHeadersH rx rules item heap dataRef).1 i = readH heap i) ∧
    readH (applyMatchReplaceHeadersH rx rules item heap dataRef).1
        (applyMatchReplaceHeadersH rx rules item heap dataRef).2 =
      applyMatchReplaceHeaders rx rules item (readH heap dataRef) := by
  unfold applyMatchReplaceHeadersH applyMatchReplaceHeaders
  cases hemp : (rulesFor rules item).isEmpty with
  | true =>
    rw [List.isEmpty_iff.mp hemp]
    exact ⟨fun i _ => rfl, rfl⟩
  | false =>
    simp only [hemp, Bool.false_eq_true, if_false]
    have h0 := foldH_spec rx (rulesFor rules item) heap
      (allocH heap (readH heap dataRef))
      (by simp [allocH]) (fun i hi => readH_append_left hi) (by simp [allocH])
    refine ⟨h0.2.1, ?_⟩
    rw [h0.2.2.2]
    simp only [allocH]
    rw [readH_append_self]

/-- Witness for C10: a one-cell heap holding the input dict is unchanged at
its only pre-existing index after a rewriting rule runs, while the returned
reference holds the rewritten dict. -/
theorem c10_no_input_mutation_witness :
    readH (applyMatchReplaceHeadersH (fun _ _ _ => none)
        [⟨true, "Request header", "a", "b", false⟩] "Request header"
        [[("a", "1")]] 0).1 0 = [("a", "1")] := by
  rw [(c10_no_input_mutation (fun _ _ _ => none)
      [⟨true, "Request header", "a", "b", false⟩] "Request header"
      [[("a", "1")]] 0).1 0 (by decide)]
  rfl

end Chameleon
